import Mathlib

/-!
Shallow embedding of `src/fuzz/afl.c` (the AFL persistent-mode fuzzing
harness of the repository).

The harness body is straight-line code plus one loop:

  __AFL_INIT();
  unsigned char *buf = __AFL_FUZZ_TESTCASE_BUF;
  while (__AFL_LOOP(UINT_MAX)) {
    int len = __AFL_FUZZ_TESTCASE_LEN;
    zig_fuzz_test_astgen(buf, len);
  }
  return 0;

The AFL runtime (the `__AFL_*` macros) is external to the repository: it
supplies a shared buffer address, and for each granted loop iteration the
current testcase bytes and an engine-reported length.  We model that
environment as an `Engine` value and embed `main` as a function producing
the list of externally observable events (`mainTrace`) together with its
return value (`mainResult`).  The C declaration `int len = ...` narrows the
engine-reported value to a 32-bit `int` (`toCInt`); the subsequent widening
of `int` to `ssize_t` at the call is value-preserving.
-/

namespace Afl

/-- The two test-subject functions declared in `src/fuzz/afl.c`
(`zig_fuzz_test_direct` and `zig_fuzz_test_astgen`). -/
inductive Subject where
  | direct
  | astgen
deriving DecidableEq, Repr

/-- Externally observable events of a harness execution: the engine
handshake (`__AFL_INIT`), the fetch of the shared buffer address
(`__AFL_FUZZ_TESTCASE_BUF`), a call into a test subject with the buffer
address, the bytes currently in the buffer and the length argument, and a
write to standard output or standard error (never emitted by this
harness). -/
inductive Event where
  | init
  | fetchBuf (ptr : Nat)
  | call (s : Subject) (ptr : Nat) (data : List Nat) (len : Int)
  | output (text : String)
deriving DecidableEq, Repr

/-- Holds exactly on the handshake event. -/
def Event.isInit : Event → Bool
  | .init => true
  | _ => false

/-- Holds exactly on the buffer-address fetch event. -/
def Event.isFetch : Event → Bool
  | .fetchBuf _ => true
  | _ => false

/-- Holds exactly on calls into a test subject. -/
def Event.isCall : Event → Bool
  | .call _ _ _ _ => true
  | _ => false

/-- Holds exactly on writes to standard output or standard error. -/
def Event.isOutput : Event → Bool
  | .output _ => true
  | _ => false

/-- The buffer address passed to a call event, if the event is a call. -/
def Event.calledPtr : Event → Option Nat
  | .call _ p _ _ => some p
  | _ => none

/-- Holds exactly on calls into the given test subject. -/
def Event.callsSubject : Event → Subject → Bool
  | .call s _ _ _, t => s == t
  | _, _ => false

/-- One engine-granted loop iteration: the testcase bytes the engine has
placed in the shared buffer, and the length it reports alongside them. -/
structure EngineIter where
  data : List Nat
  len : Int
deriving DecidableEq, Repr

/-- The AFL runtime environment as seen by the harness: the shared buffer
address handed out by `__AFL_FUZZ_TESTCASE_BUF`, and the sequence of loop
iterations the engine grants before it ends the loop. -/
structure Engine where
  bufPtr : Nat
  iterations : List EngineIter
deriving DecidableEq, Repr

/-- `UINT_MAX` from `<limits.h>` on the 32-bit-`int` platforms the harness
targets. -/
def UINT_MAX : Nat := 4294967295

/-- C conversion of a wider integer value to a 32-bit two's-complement
`int`, as performed by the declaration `int len = __AFL_FUZZ_TESTCASE_LEN;`. -/
def toCInt (x : Int) : Int := (x + 2147483648) % 4294967296 - 2147483648

/-- One iteration of the `while (__AFL_LOOP(UINT_MAX))` body:
`int len = __AFL_FUZZ_TESTCASE_LEN; zig_fuzz_test_astgen(buf, len);`.
The return value of the call is not consumed, so the event is the whole
effect of the body. -/
def loopBody (bufPtr : Nat) (it : EngineIter) : Event :=
  .call .astgen bufPtr it.data (toCInt it.len)

/-- The event trace of `main`: the `__AFL_INIT()` handshake, the single
fetch of the shared buffer address, then one test-subject call per
engine-granted iteration, the loop being capped at `UINT_MAX` iterations
by `__AFL_LOOP(UINT_MAX)`.  `argc` and `argv` are the (ignored)
command-line parameters of `main`. -/
def mainTrace (argc : Nat) (argv : List String) (e : Engine) : List Event :=
  .init :: .fetchBuf e.bufPtr ::
    (e.iterations.take UINT_MAX).map (loopBody e.bufPtr)

/-- The return value of `main`: the literal `0`. -/
def mainResult (argc : Nat) (argv : List String) (e : Engine) : Int := 0

/-- Narrowing to `int` is the identity on values already in `int` range. -/
theorem toCInt_eq_self {x : Int} (h1 : -2147483648 ≤ x) (h2 : x ≤ 2147483647) :
    toCInt x = x := by
  unfold toCInt
  omega

/-- Narrowing to `int` changes every value outside `int` range. -/
theorem toCInt_ne_self {x : Int} (h : x < -2147483648 ∨ 2147483647 < x) :
    toCInt x ≠ x := by
  unfold toCInt
  omega

/-- The trace element at position `i + 2` is the image of the engine's
`i`-th granted iteration under the loop body, whenever `i` is below the
`__AFL_LOOP` cap. -/
theorem mainTrace_getElem_aux (argc : Nat) (argv : List String) (e : Engine)
    (i : Nat) (h1 : i < UINT_MAX) :
    (mainTrace argc argv e)[i + 2]? = (e.iterations[i]?).map (loopBody e.bufPtr) := by
  show (Event.init :: Event.fetchBuf e.bufPtr ::
    (e.iterations.take UINT_MAX).map (loopBody e.bufPtr))[i + 2]? = _
  rw [show i + 2 = (i + 1) + 1 from rfl, List.getElem?_cons_succ,
    List.getElem?_cons_succ, List.getElem?_map, List.getElem?_take_of_lt h1]

/-- Counting over the mapped loop-body events is zero for any predicate
that rejects every loop-body event. -/
theorem countP_map_loopBody (p : Event → Bool) (b : Nat) (l : List EngineIter)
    (h : ∀ it : EngineIter, p (loopBody b it) = false) :
    (l.map (loopBody b)).countP p = 0 := by
  rw [List.countP_map]
  apply List.countP_eq_zero.2
  intro a _
  simp [Function.comp, h]

/-- Counting over the mapped loop-body events is the iteration count for
any predicate that accepts every loop-body event. -/
theorem countP_map_loopBody_all (p : Event → Bool) (b : Nat) (l : List EngineIter)
    (h : ∀ it : EngineIter, p (loopBody b it) = true) :
    (l.map (loopBody b)).countP p = l.length := by
  rw [List.countP_map, ← List.length_map l (loopBody b)]
  rw [List.length_map]
  exact List.countP_eq_length.2 (fun a _ => h a)

/-- The harness performs one test-subject call per engine-granted
iteration, up to the `__AFL_LOOP` cap. -/
theorem countP_isCall_mainTrace (argc : Nat) (argv : List String) (e : Engine) :
    (mainTrace argc argv e).countP Event.isCall = min UINT_MAX e.iterations.length := by
  unfold mainTrace
  rw [List.countP_cons, List.countP_cons,
    countP_map_loopBody_all Event.isCall e.bufPtr _ (fun it => rfl),
    List.length_take]
  rfl

/-- Modelled from the spec: the read-based harness variant (the second of
the two near-duplicate entry points the spec describes, with standard
input as its input source) is not under `src/`.  Per the spec, each
iteration obtains its input by a blocking read from standard input of up
to 4096 bytes into a fixed-capacity buffer and forwards `(buffer, length)`
unmodified to the test subject; `read` returns the number of bytes read.
`s` is the byte stream available on standard input; the result is the pair
handed to the test subject. -/
def readHarnessIter (s : List Nat) : List Nat × Int :=
  (s.take 4096, ((s.take 4096).length : Int))

/-- C1: for every byte sequence `b` of length `n ≤ 4096` supplied by the
input source for an iteration, the harness invokes the test subject with
exactly `(b, n)`: the call event of that iteration carries the engine's
bytes and reported length unmodified. -/
theorem claim_C1_passthrough (argc : Nat) (argv : List String) (e : Engine)
    (i : Nat) (it : EngineIter) (h1 : i < UINT_MAX)
    (h2 : e.iterations[i]? = some it)
    (h3 : it.len = (it.data.length : Int))
    (h4 : it.data.length ≤ 4096) :
    (mainTrace argc argv e)[i + 2]? =
      some (.call .astgen e.bufPtr it.data it.len) := by
  rw [mainTrace_getElem_aux argc argv e i h1, h2]
  show some (loopBody e.bufPtr it) = _
  unfold loopBody
  rw [toCInt_eq_self (by omega) (by omega)]

/-- C1 witness: a concrete two-byte testcase is forwarded verbatim. -/
theorem claim_C1_passthrough_witness :
    (mainTrace 0 [] ⟨7, [⟨[104, 105], 2⟩]⟩)[0 + 2]? =
      some (.call .astgen 7 [104, 105] 2) :=
  claim_C1_passthrough 0 [] ⟨7, [⟨[104, 105], 2⟩]⟩ 0 ⟨[104, 105], 2⟩
    (by decide) (by decide) (by decide) (by decide)

/-- C2 counterexample: the engine-reported length 2147483648 (one past
`INT_MAX`) is not forwarded unchanged: the test subject receives the
`int`-converted value -2147483648 instead. -/
theorem claim_C2_uninspected_cex :
    (mainTrace 0 [] ⟨4096, [⟨[], 2147483648⟩]⟩)[2]? =
      some (.call .astgen 4096 [] (-2147483648)) ∧
    (-2147483648 : Int) ≠ 2147483648 := by
  constructor
  · decide
  · decide

/-- C2 (amended): for every engine-reported length that is representable
in a C `int` — in particular every negative or zero value down to
`INT_MIN` — that value is forwarded unchanged as the length argument, and
the number of test-subject calls does not depend on any length value (no
retry, no error propagation, no branch on the length); a reported value
outside `int` range is forwarded as its `int`-converted value. -/
theorem claim_C2_len_forwarded (argc : Nat) (argv : List String) (e : Engine)
    (i : Nat) (it : EngineIter) (h1 : i < UINT_MAX)
    (h2 : e.iterations[i]? = some it)
    (h3 : -2147483648 ≤ it.len) (h4 : it.len ≤ 2147483647) :
    (mainTrace argc argv e)[i + 2]? =
      some (.call .astgen e.bufPtr it.data it.len) ∧
    (mainTrace argc argv e).countP Event.isCall =
      min UINT_MAX e.iterations.length := by
  refine ⟨?_, countP_isCall_mainTrace argc argv e⟩
  rw [mainTrace_getElem_aux argc argv e i h1, h2]
  show some (loopBody e.bufPtr it) = _
  unfold loopBody
  rw [toCInt_eq_self h3 h4]

/-- C2 witness: a concrete negative reported length (-7) reaches the test
subject unchanged. -/
theorem claim_C2_len_forwarded_witness :
    (mainTrace 0 [] ⟨3, [⟨[], -7⟩]⟩)[0 + 2]? =
      some (.call .astgen 3 [] (-7)) ∧
    (mainTrace 0 [] ⟨3, [⟨[], -7⟩]⟩).countP Event.isCall =
      min UINT_MAX 1 :=
  claim_C2_len_forwarded 0 [] ⟨3, [⟨[], -7⟩]⟩ 0 ⟨[], -7⟩
    (by decide) (by decide) (by decide) (by decide)

/-- C3: the handshake is the first event of every execution and occurs
exactly once, so no test-subject call precedes it, and there is exactly
one test-subject call per engine-granted iteration (up to the
`__AFL_LOOP` cap). -/
theorem claim_C3_ordering (argc : Nat) (argv : List String) (e : Engine) :
    (mainTrace argc argv e).head? = some Event.init ∧
    (mainTrace argc argv e).countP Event.isInit = 1 ∧
    (mainTrace argc argv e).countP Event.isCall =
      min UINT_MAX e.iterations.length := by
  refine ⟨rfl, ?_, countP_isCall_mainTrace argc argv e⟩
  unfold mainTrace
  rw [List.countP_cons, List.countP_cons,
    countP_map_loopBody Event.isInit e.bufPtr _ (fun it => rfl)]
  rfl

/-- C4: `main` returns 0 on every execution, the budget requested from
`__AFL_LOOP` is `UINT_MAX = 4294967295`, and whenever the engine grants at
most that many iterations the harness performs exactly one call per
granted iteration — the loop imposes no bound of its own. -/
theorem claim_C4_budget (argc : Nat) (argv : List String) (e : Engine)
    (h : e.iterations.length ≤ UINT_MAX) :
    mainResult argc argv e = 0 ∧ UINT_MAX = 4294967295 ∧
    (mainTrace argc argv e).countP Event.isCall = e.iterations.length := by
  refine ⟨rfl, rfl, ?_⟩
  rw [countP_isCall_mainTrace argc argv e]
  omega

/-- C4 witness: a concrete one-iteration run returns 0 and performs one
call. -/
theorem claim_C4_budget_witness :
    mainResult 0 [] ⟨0, [⟨[], 0⟩]⟩ = 0 ∧ UINT_MAX = 4294967295 ∧
    (mainTrace 0 [] ⟨0, [⟨[], 0⟩]⟩).countP Event.isCall = 1 :=
  claim_C4_budget 0 [] ⟨0, [⟨[], 0⟩]⟩ (by decide)

/-- C5: the harness writes nothing to standard output or standard error on
any execution, and both its trace and its return value are independent of
the command-line parameters (no CLI flags or configuration are read). -/
theorem claim_C5_no_output (argc : Nat) (argv : List String)
    (argc2 : Nat) (argv2 : List String) (e : Engine) :
    (mainTrace argc argv e).countP Event.isOutput = 0 ∧
    mainTrace argc argv e = mainTrace argc2 argv2 e ∧
    mainResult argc argv e = mainResult argc2 argv2 e := by
  refine ⟨?_, rfl, rfl⟩
  unfold mainTrace
  rw [List.countP_cons, List.countP_cons,
    countP_map_loopBody Event.isOutput e.bufPtr _ (fun it => rfl)]
  rfl

/-- C6: the read-based harness variant reads up to 4096 bytes per call
from standard input and forwards them unmodified: the forwarded data is at
most 4096 bytes, the forwarded length is exactly the byte count read, and
the forwarded bytes are exactly the leading bytes of the standard-input
stream. -/
theorem claim_C6_read_variant (s : List Nat) :
    (readHarnessIter s).1.length ≤ 4096 ∧
    (readHarnessIter s).2 = ((readHarnessIter s).1.length : Int) ∧
    s.take (readHarnessIter s).1.length = (readHarnessIter s).1 := by
  refine ⟨?_, rfl, ?_⟩
  · unfold readHarnessIter
    rw [List.length_take]
    omega
  · unfold readHarnessIter
    rw [List.length_take, ← List.take_take, List.take_length]

/-- C7: the call event of iteration `i` depends only on the fixed buffer
address and the engine's `i`-th granted iteration: two environments that
agree on those produce identical events at that position, so no harness
state written by an earlier iteration is read by a later one. -/
theorem claim_C7_iteration_independence (argc : Nat) (argv : List String)
    (e1 e2 : Engine) (i : Nat) (h1 : i < UINT_MAX)
    (hp : e1.bufPtr = e2.bufPtr)
    (hi : e1.iterations[i]? = e2.iterations[i]?) :
    (mainTrace argc argv e1)[i + 2]? = (mainTrace argc argv e2)[i + 2]? := by
  rw [mainTrace_getElem_aux argc argv e1 i h1,
    mainTrace_getElem_aux argc argv e2 i h1, hp, hi]

/-- C7 witness: two environments differing only in a later iteration
produce the same first-iteration call event. -/
theorem claim_C7_iteration_independence_witness :
    (mainTrace 0 [] ⟨5, [⟨[1], 1⟩, ⟨[2], 2⟩]⟩)[0 + 2]? =
      (mainTrace 0 [] ⟨5, [⟨[1], 1⟩, ⟨[9], 9⟩]⟩)[0 + 2]? :=
  claim_C7_iteration_independence 0 [] ⟨5, [⟨[1], 1⟩, ⟨[2], 2⟩]⟩
    ⟨5, [⟨[1], 1⟩, ⟨[9], 9⟩]⟩ 0 (by decide) rfl rfl

/-- C8: no execution ever calls `zig_fuzz_test_direct`, and every
test-subject call is a call to `zig_fuzz_test_astgen`. -/
theorem claim_C8_only_astgen (argc : Nat) (argv : List String) (e : Engine) :
    (mainTrace argc argv e).countP (fun ev => ev.callsSubject Subject.direct) = 0 ∧
    (mainTrace argc argv e).countP (fun ev => ev.callsSubject Subject.astgen) =
      (mainTrace argc argv e).countP Event.isCall := by
  constructor
  · unfold mainTrace
    rw [List.countP_cons, List.countP_cons,
      countP_map_loopBody (fun ev => ev.callsSubject Subject.direct)
        e.bufPtr _ (fun it => rfl)]
    rfl
  · rw [countP_isCall_mainTrace argc argv e]
    unfold mainTrace
    rw [List.countP_cons, List.countP_cons,
      countP_map_loopBody_all (fun ev => ev.callsSubject Subject.astgen)
        e.bufPtr _ (fun it => rfl), List.length_take]
    rfl

/-- C10: the buffer address is fetched exactly once, immediately after the
handshake and before any call, and every test-subject call passes exactly
that address as its first argument. -/
theorem claim_C10_ptr_stable (argc : Nat) (argv : List String) (e : Engine) :
    (mainTrace argc argv e)[1]? = some (Event.fetchBuf e.bufPtr) ∧
    (mainTrace argc argv e).countP Event.isFetch = 1 ∧
    (mainTrace argc argv e).countP
      (fun ev => ev.isCall && !(ev.calledPtr == some e.bufPtr)) = 0 := by
  refine ⟨by
    unfold mainTrace
    rw [show (1 : Nat) = 0 + 1 from rfl, List.getElem?_cons_succ,
      List.getElem?_cons_zero], ?_, ?_⟩
  · unfold mainTrace
    rw [List.countP_cons, List.countP_cons,
      countP_map_loopBody Event.isFetch e.bufPtr _ (fun it => rfl)]
    rfl
  · unfold mainTrace
    rw [List.countP_cons, List.countP_cons,
      countP_map_loopBody _ e.bufPtr _
        (fun it => by simp [loopBody, Event.isCall, Event.calledPtr])]
    rfl

/-- C9: the engine-reported length is narrowed to a 32-bit `int` before
the call, so for every reported value outside `int` range the test subject
receives the `int`-converted value, which differs from the original. -/
theorem claim_C9_int_truncation (argc : Nat) (argv : List String) (e : Engine)
    (i : Nat) (it : EngineIter) (h1 : i < UINT_MAX)
    (h2 : e.iterations[i]? = some it)
    (h3 : it.len < -2147483648 ∨ 2147483647 < it.len) :
    (mainTrace argc argv e)[i + 2]? =
      some (.call .astgen e.bufPtr it.data (toCInt it.len)) ∧
    toCInt it.len ≠ it.len := by
  refine ⟨?_, toCInt_ne_self h3⟩
  rw [mainTrace_getElem_aux argc argv e i h1, h2]
  rfl

/-- C9 witness: the concrete reported length 2147483648 reaches the test
subject as -2147483648. -/
theorem claim_C9_int_truncation_witness :
    (mainTrace 0 [] ⟨0, [⟨[], 2147483648⟩]⟩)[0 + 2]? =
      some (.call .astgen 0 [] (toCInt 2147483648)) ∧
    toCInt 2147483648 ≠ 2147483648 :=
  claim_C9_int_truncation 0 [] ⟨0, [⟨[], 2147483648⟩]⟩ 0 ⟨[], 2147483648⟩
    (by decide) (by decide) (by decide)

end Afl
